import Mathlib

/-!
Shallow embedding of the pretrained-artifact resolver/cache of llama-burn
(`src/llama-burn/src/pretrained.rs`) and of the sampler selection in the chat
example (`src/llama-burn/examples/chat.rs`), together with proofs of the
behavioural properties claimed for them.

The filesystem, the home-directory lookup, and the network are external
collaborators of `Pretrained::download`; they are embedded as an explicit
`World` state threaded through the call.  Fallible filesystem operations
(`create_dir_all`, `File::create`, `write_all`) carry a fault flag in the
`World` so that every error path of the source can be exercised.  The network
helper `burn::data::network::downloader::download_file_as_bytes(url, msg)`
returns the bytes directly (`Vec<u8>`, no `Result` channel at the call site),
so a failing fetch can only abort inside the helper; it is embedded as
`response : String → Option (List Nat)` where `none` makes the embedded call
end in the `panicked` outcome.
-/

namespace LlamaBurn

/-- Pre-trained model metadata (struct `Pretrained` in `pretrained.rs`):
`name` keys the cache directory, `model` and `tokenizer` are remote URLs. -/
structure Pretrained where
  name : String
  model : String
  tokenizer : String
  deriving DecidableEq

/-- Llama pre-trained weights variants (enum `Llama` in `pretrained.rs`). -/
inductive Llama where
  | Llama3 : Llama
  | TinyLlama : Llama
  deriving DecidableEq

/-- The static metadata table (`impl ModelMeta for Llama` in `pretrained.rs`). -/
def Llama.pretrained : Llama → Pretrained
  | .Llama3 =>
      { name := "Llama-3-8B"
        model := "https://huggingface.co/tracel-ai/llama-3-8b-burn/resolve/main/model.bin?download=true"
        tokenizer := "https://huggingface.co/tracel-ai/llama-3-8b-burn/resolve/main/tokenizer.model?download=true" }
  | .TinyLlama =>
      { name := "TinyLlama-1.1B"
        model := "https://huggingface.co/tracel-ai/tiny-llama-1.1b-burn/resolve/main/model.bin?download=true"
        tokenizer := "https://huggingface.co/tracel-ai/tiny-llama-1.1b-burn/resolve/main/tokenizer.json?download=true" }

/-- Rust `str::rsplit_once(c)`: split around the last occurrence of `c`,
returning `(before, after)`, or `none` when `c` does not occur. -/
def rsplitOnceChar (c : Char) : List Char → Option (List Char × List Char)
  | [] => none
  | x :: xs =>
    match rsplitOnceChar c xs with
    | some pr => some (x :: pr.1, pr.2)
    | none => if x = c then some ([], xs) else none

/-- The download-marker query suffix `"?download=true"` that
`Pretrained::download` removes from the final URL segment. -/
def downloadMarker : List Char := "?download=true".data

/-- Fuel-indexed core of `removeMarker`; with fuel at least the length of the
input it performs Rust `str::replace("?download=true", "")`: scan left to
right, removing each non-overlapping occurrence of the marker. -/
def removeMarkerAux : Nat → List Char → List Char
  | _, [] => []
  | 0, s => s
  | fuel + 1, c :: rest =>
    if downloadMarker.isPrefixOf (c :: rest) then
      removeMarkerAux fuel (rest.drop (downloadMarker.length - 1))
    else
      c :: removeMarkerAux fuel rest

/-- Rust `str::replace("?download=true", "")` on a list of characters. -/
def removeMarker (s : List Char) : List Char :=
  removeMarkerAux s.length s

/-- The local file name `Pretrained::download` derives from a URL:
`url.rsplit_once('/').unwrap().1.replace("?download=true", "")`.
`none` is the case where `rsplit_once` finds no `'/'` and `unwrap` panics. -/
def fileBaseName (url : String) : Option String :=
  (rsplitOnceChar '/' url.data).map fun pr => String.mk (removeMarker pr.2)

/-- Refinement reference, following the spec's words rather than the source:
the URL's final path segment with one trailing literal `?download=true`
marker stripped (and left unchanged when the segment does not end in the
marker). -/
def fileBaseNameSpec (url : String) : Option String :=
  (rsplitOnceChar '/' url.data).map fun pr =>
    if downloadMarker.isSuffixOf pr.2 then
      String.mk (pr.2.take (pr.2.length - downloadMarker.length))
    else
      String.mk pr.2

/-- The cache directory computed in `Pretrained::download`:
`home_dir().join(".cache").join("llama-burn").join(self.name)`. -/
def cacheDir (home : String) (p : Pretrained) : String :=
  home ++ "/.cache/llama-burn/" ++ p.name

/-- The error kinds that `Pretrained::download` can return through its
`Result`: each of the three fallible filesystem calls propagates its own
`std::io::Error` via `?`. -/
inductive IOErrorKind where
  | dirCreate : IOErrorKind
  | fileCreate : IOErrorKind
  | writeAll : IOErrorKind
  deriving DecidableEq

/-- Result of one embedded call: `ok` / `err` are the `Result` values of the
source signature, `panicked` is a process abort (`expect`, `unwrap`, or an
abort inside the byte-download helper). -/
inductive Outcome (α : Type) where
  | ok (a : α) : Outcome α
  | err (e : IOErrorKind) : Outcome α
  | panicked (msg : String) : Outcome α
  deriving DecidableEq

/-- External state of one `Pretrained::download` call: home directory lookup,
filesystem contents (existing directories, and files with their bytes), one
fault flag per fallible filesystem call, the network's response per URL
(`none`: the fetch fails and the helper aborts), and a fetch counter. -/
structure World where
  home : Option String
  dirs : List String
  files : List (String × List Nat)
  failDirCreate : Bool
  failFileCreate : Bool
  failWrite : Bool
  response : String → Option (List Nat)
  fetches : Nat

/-- `Path::exists`: the path is a present directory or a present file. -/
def World.pathExists (w : World) (p : String) : Prop :=
  p ∈ w.dirs ∨ p ∈ w.files.map Prod.fst

instance (w : World) (p : String) : Decidable (w.pathExists p) :=
  inferInstanceAs (Decidable (p ∈ w.dirs ∨ p ∈ w.files.map Prod.fst))

/-- Bytes currently stored at a path, if a file is present there. -/
def World.fileContent (w : World) (p : String) : Option (List Nat) :=
  (w.files.find? fun e => e.1 == p).map Prod.snd

/-- A world with home directory `h`, an empty filesystem, no injected
filesystem faults, network behaviour `resp`, and no fetches performed. -/
def World.fresh (h : String) (resp : String → Option (List Nat)) : World :=
  ⟨some h, [], [], false, false, false, resp, 0⟩

/-- The `if !model_dir.exists() { create_dir_all(&model_dir)?; }` step of
`Pretrained::download`: a no-op when the directory is present, otherwise
`create_dir_all` either fails with its own I/O error or adds the directory. -/
def ensureDir (w : World) (d : String) : Outcome Unit × World :=
  if w.pathExists d then
    (.ok (), w)
  else if w.failDirCreate = true then
    (.err .dirCreate, w)
  else
    (.ok (), { w with dirs := d :: w.dirs })

/-- The cache-miss tail of `Pretrained::download`: fetch the bytes
(`download_file_as_bytes` — no error channel, a failing fetch aborts), then
`File::create(&file_name)?` (an empty file appears on success), then
`output_file.write_all(&bytes)?` (the bytes land only if it succeeds; on
failure the just-created empty file stays behind). -/
def fetchAndWrite (w : World) (url file_name : String) : Outcome String × World :=
  match w.response url with
  | none => (.panicked "network failure", { w with fetches := w.fetches + 1 })
  | some bytes =>
    if w.failFileCreate = true then
      (.err .fileCreate, { w with fetches := w.fetches + 1 })
    else if w.failWrite = true then
      (.err .writeAll,
       { w with fetches := w.fetches + 1, files := (file_name, []) :: w.files })
    else
      (.ok file_name,
       { w with fetches := w.fetches + 1, files := (file_name, bytes) :: w.files })

/-- Shallow embedding of `Pretrained::download(&self, url)`: resolve the home
directory (`expect` panics when it is unavailable), ensure the cache
directory, derive the local file name (`unwrap` panics when the URL has no
`'/'`), return the path at once when the file exists, otherwise fetch and
write the bytes. -/
def Pretrained.download (p : Pretrained) (w : World) (url : String) :
    Outcome String × World :=
  match w.home with
  | none => (.panicked "Should be able to get home directory", w)
  | some home =>
    match ensureDir w (cacheDir home p) with
    | (.ok _, w1) =>
      match fileBaseName url with
      | none => (.panicked "called Option.unwrap on a None value", w1)
      | some base =>
        if w1.pathExists (cacheDir home p ++ "/" ++ base) then
          (.ok (cacheDir home p ++ "/" ++ base), w1)
        else
          fetchAndWrite w1 url (cacheDir home p ++ "/" ++ base)
    | (.err e, w1) => (.err e, w1)
    | (.panicked m, w1) => (.panicked m, w1)

/-- `Pretrained::download_weights`: download the model URL. -/
def Pretrained.download_weights (p : Pretrained) (w : World) :
    Outcome String × World :=
  p.download w p.model

/-- `Pretrained::download_tokenizer`: download the tokenizer URL. -/
def Pretrained.download_tokenizer (p : Pretrained) (w : World) :
    Outcome String × World :=
  p.download w p.tokenizer

/-- Modelled from the spec: the `Sampler` type lives in
`src/llama-burn/src/sampling.rs`, which is not among the sources; §3 and §9
describe it as a closed tagged union over a stateless `Argmax` and a `TopP`
carrying the probability threshold and the seed of its PRNG (the constructor
call `TopP::new(top_p, seed)` in `chat.rs`). -/
inductive Sampler where
  | Argmax : Sampler
  | TopP (probability_threshold : ℚ) (random_seed : ℕ) : Sampler
  deriving DecidableEq

/-- Sampler selection in `chat` (`examples/chat.rs`):
`if args.temperature > 0.0 { Sampler::TopP(TopP::new(args.top_p, args.seed)) }
else { Sampler::Argmax }`.  The `f64` temperature and threshold are embedded
as rationals, which carry the ordering of the finite floating-point values
this comparison inspects. -/
def chatSampler (temperature top_p : ℚ) (seed : ℕ) : Sampler :=
  if 0 < temperature then .TopP top_p seed else .Argmax

/-! Concrete worlds used to evaluate the embedding on closed inputs. -/

/-- A network that answers every URL with the byte `[7]`. -/
def respBytes : String → Option (List Nat) := fun _ => some [7]

/-- A network on which every fetch fails. -/
def noResp : String → Option (List Nat) := fun _ => none

/-- A world whose cache already holds the file for URL `"a/f"` under the
`Llama-3-8B` cache directory of home `"/h"`. -/
def hitWorld : World :=
  ⟨some "/h", ["/h/.cache/llama-burn/Llama-3-8B"],
   [("/h/.cache/llama-burn/Llama-3-8B/f", [7])], false, false, false, respBytes, 0⟩

/-- A fresh world with home `"/h"` and a network that always answers. -/
def missWorld : World := World.fresh "/h" respBytes

/-- A fresh world whose `create_dir_all` fails. -/
def dirFailWorld : World := ⟨some "/h", [], [], true, false, false, respBytes, 0⟩

/-- A fresh world whose `File::create` fails. -/
def createFailWorld : World := ⟨some "/h", [], [], false, true, false, respBytes, 0⟩

/-- A fresh world whose `write_all` fails. -/
def writeFailWorld : World := ⟨some "/h", [], [], false, false, true, respBytes, 0⟩

/-- A fresh world on which every fetch fails. -/
def netFailWorld : World := World.fresh "/h" noResp

/-- A world whose home directory is not resolvable. -/
def noHomeWorld : World := ⟨none, [], [], false, false, false, noResp, 0⟩

/-- The world left behind by a successful cache-miss download of `"a/f"` for
the `Llama-3-8B` variant starting from `missWorld`. -/
def w1AfterMiss : World :=
  ⟨some "/h", ["/h/.cache/llama-burn/Llama-3-8B"],
   [("/h/.cache/llama-burn/Llama-3-8B/f", [7])], false, false, false, respBytes, 1⟩

/-! Helper lemmas about the string and list operations of the embedding. -/

theorem removeMarkerAux_nil (fuel : Nat) : removeMarkerAux fuel [] = [] := by
  cases fuel <;> rfl

theorem removeMarkerAux_marker_append (base : List Char) :
    ∀ fuel : Nat, (base ++ downloadMarker).length ≤ fuel → '?' ∉ base →
      removeMarkerAux fuel (base ++ downloadMarker) = base := by
  induction base with
  | nil =>
    intro fuel hfuel _
    simp only [List.nil_append]
    cases fuel with
    | zero => exact absurd hfuel (by decide)
    | succ k =>
      rw [show (downloadMarker : List Char) = '?' :: "download=true".data from rfl,
        removeMarkerAux, if_pos (by decide),
        show ("download=true".data).drop (downloadMarker.length - 1) = ([] : List Char)
          from by decide]
      exact removeMarkerAux_nil k
  | cons c base' IH =>
    intro fuel hfuel hq
    have hc : c ≠ '?' := fun he => hq (he ▸ List.mem_cons_self c base')
    have hq' : '?' ∉ base' := fun hm => hq (List.mem_cons_of_mem c hm)
    cases fuel with
    | zero => exact absurd hfuel (by simp)
    | succ k =>
      have hlen : (base' ++ downloadMarker).length ≤ k := by
        have := hfuel
        simp only [List.cons_append, List.length_cons] at this
        omega
      rw [List.cons_append, removeMarkerAux, if_neg ?hpre, IH k hlen hq']
      case hpre =>
        rw [show (downloadMarker : List Char) = '?' :: "download=true".data from rfl]
        simp [List.isPrefixOf, beq_eq_false_iff_ne.mpr (Ne.symm hc)]

theorem removeMarker_marker_append (base : List Char) (hq : '?' ∉ base) :
    removeMarker (base ++ downloadMarker) = base :=
  removeMarkerAux_marker_append base _ le_rfl hq

theorem rsplitOnceChar_eq_none (c : Char) (l : List Char) (h : c ∉ l) :
    rsplitOnceChar c l = none := by
  induction l with
  | nil => rfl
  | cons x xs IH =>
    have hx : x ≠ c := fun he => h (he ▸ List.mem_cons_self x xs)
    have hxs : c ∉ xs := fun hm => h (List.mem_cons_of_mem x hm)
    simp [rsplitOnceChar, IH hxs, hx]

theorem append_slash_ne (a b : String) : a ++ "/" ++ b ≠ a := by
  intro he
  have hl := congrArg String.length he
  rw [String.length_append, String.length_append] at hl
  have hone : ("/" : String).length = 1 := rfl
  omega

theorem cacheDir_ne (h : String) (p q : Pretrained)
    (hlen : p.name.length ≠ q.name.length) : cacheDir h p ≠ cacheDir h q := by
  intro he
  have hl := congrArg String.length he
  rw [cacheDir, cacheDir, String.length_append, String.length_append,
    String.length_append, String.length_append] at hl
  omega

/-! Characterizations of the two filesystem/network steps. -/

theorem ensureDir_of_exists (w : World) (d : String) (hd : w.pathExists d) :
    ensureDir w d = (.ok (), w) := by
  unfold ensureDir
  rw [if_pos hd]

theorem ensureDir_creates (w : World) (d : String) (hd : ¬ w.pathExists d)
    (hf : w.failDirCreate = false) :
    ensureDir w d = (.ok (), { w with dirs := d :: w.dirs }) := by
  unfold ensureDir
  rw [if_neg hd, if_neg (by simp [hf])]

theorem ensureDir_fails (w : World) (d : String) (hd : ¬ w.pathExists d)
    (hf : w.failDirCreate = true) :
    ensureDir w d = (.err .dirCreate, w) := by
  unfold ensureDir
  rw [if_neg hd, if_pos hf]

theorem ensureDir_ok_inv (w : World) (d : String) (u : Unit) (w1 : World)
    (h : ensureDir w d = (.ok u, w1)) :
    w1.pathExists d ∧ w1.home = w.home ∧ w1.files = w.files ∧
    w1.fetches = w.fetches ∧ w1.response = w.response ∧
    w1.failFileCreate = w.failFileCreate ∧ w1.failWrite = w.failWrite ∧
    (∀ q, w.pathExists q → w1.pathExists q) := by
  unfold ensureDir at h
  by_cases hd : w.pathExists d
  · rw [if_pos hd] at h
    injection h with _ h2
    subst h2
    exact ⟨hd, rfl, rfl, rfl, rfl, rfl, rfl, fun q hq => hq⟩
  · rw [if_neg hd] at h
    by_cases hf : w.failDirCreate = true
    · rw [if_pos hf] at h
      exact absurd (congrArg Prod.fst h) (by simp)
    · rw [if_neg hf] at h
      injection h with _ h2
      subst h2
      refine ⟨Or.inl (List.mem_cons_self d w.dirs), rfl, rfl, rfl, rfl, rfl, rfl,
        fun q hq => ?_⟩
      rcases hq with hq | hq
      · exact Or.inl (List.mem_cons_of_mem d hq)
      · exact Or.inr hq

theorem fetchAndWrite_success (w : World) (url f : String) (bytes : List Nat)
    (hr : w.response url = some bytes) (hfc : w.failFileCreate = false)
    (hfw : w.failWrite = false) :
    fetchAndWrite w url f =
      (.ok f, { w with fetches := w.fetches + 1, files := (f, bytes) :: w.files }) := by
  unfold fetchAndWrite
  rw [hr]
  simp [hfc, hfw]

theorem fetchAndWrite_write_fails (w : World) (url f : String) (bytes : List Nat)
    (hr : w.response url = some bytes) (hfc : w.failFileCreate = false)
    (hfw : w.failWrite = true) :
    fetchAndWrite w url f =
      (.err .writeAll,
       { w with fetches := w.fetches + 1, files := (f, []) :: w.files }) := by
  unfold fetchAndWrite
  rw [hr]
  simp [hfc, hfw]

theorem fetchAndWrite_create_fails (w : World) (url f : String) (bytes : List Nat)
    (hr : w.response url = some bytes) (hfc : w.failFileCreate = true) :
    fetchAndWrite w url f =
      (.err .fileCreate, { w with fetches := w.fetches + 1 }) := by
  unfold fetchAndWrite
  rw [hr]
  simp [hfc]

theorem fetchAndWrite_network_aborts (w : World) (url f : String)
    (hr : w.response url = none) :
    fetchAndWrite w url f =
      (.panicked "network failure", { w with fetches := w.fetches + 1 }) := by
  unfold fetchAndWrite
  rw [hr]

theorem fetchAndWrite_ok_inv (w : World) (url f pa : String) (w' : World)
    (h : fetchAndWrite w url f = (.ok pa, w')) :
    pa = f ∧ ∃ bytes, w.response url = some bytes ∧
      w' = { w with fetches := w.fetches + 1, files := (f, bytes) :: w.files } := by
  unfold fetchAndWrite at h
  split at h
  · exact absurd (congrArg Prod.fst h) (by simp)
  · rename_i bytes heq
    split at h
    · exact absurd (congrArg Prod.fst h) (by simp)
    · split at h
      · exact absurd (congrArg Prod.fst h) (by simp)
      · injection h with h1 h2
        injection h1 with h1
        exact ⟨h1.symm, bytes, heq, h2.symm⟩

/-! Behaviour of `Pretrained.download` on its distinct control-flow paths. -/

theorem download_eq_body (p : Pretrained) (w : World) (h : String)
    (hh : w.home = some h) (url : String) :
    p.download w url =
      (match ensureDir w (cacheDir h p) with
      | (.ok _, w1) =>
        match fileBaseName url with
        | none => (.panicked "called Option.unwrap on a None value", w1)
        | some base =>
          if w1.pathExists (cacheDir h p ++ "/" ++ base) then
            (.ok (cacheDir h p ++ "/" ++ base), w1)
          else
            fetchAndWrite w1 url (cacheDir h p ++ "/" ++ base)
      | (.err e, w1) => (.err e, w1)
      | (.panicked m, w1) => (.panicked m, w1)) := by
  unfold Pretrained.download
  rw [hh]

theorem pathExists_cons_dir (w : World) (d b : String)
    (hfile : ¬ w.pathExists (d ++ "/" ++ b)) :
    ¬ (World.pathExists { w with dirs := d :: w.dirs } (d ++ "/" ++ b)) := by
  intro hx
  apply hfile
  rcases hx with hx | hx
  · rcases List.mem_cons.mp hx with he | hx
    · exact absurd he (append_slash_ne d b)
    · exact Or.inl hx
  · exact Or.inr hx

theorem download_hit (p : Pretrained) (w : World) (url h base : String)
    (hh : w.home = some h) (hb : fileBaseName url = some base)
    (hdir : w.pathExists (cacheDir h p))
    (hfile : w.pathExists (cacheDir h p ++ "/" ++ base)) :
    p.download w url = (.ok (cacheDir h p ++ "/" ++ base), w) := by
  rw [download_eq_body p w h hh url, ensureDir_of_exists w _ hdir]
  simp [hb, hfile]

theorem download_miss (p : Pretrained) (w : World) (url h base : String)
    (bytes : List Nat)
    (hh : w.home = some h) (hb : fileBaseName url = some base)
    (hfd : w.failDirCreate = false) (hfc : w.failFileCreate = false)
    (hfw : w.failWrite = false)
    (hresp : w.response url = some bytes)
    (hfile : ¬ w.pathExists (cacheDir h p ++ "/" ++ base)) :
    ∃ w1 : World,
      p.download w url = (.ok (cacheDir h p ++ "/" ++ base), w1) ∧
      w1.home = some h ∧
      w1.dirs = (if w.pathExists (cacheDir h p) then w.dirs else cacheDir h p :: w.dirs) ∧
      w1.files = (cacheDir h p ++ "/" ++ base, bytes) :: w.files ∧
      w1.failDirCreate = w.failDirCreate ∧
      w1.failFileCreate = w.failFileCreate ∧
      w1.failWrite = w.failWrite ∧
      w1.response = w.response ∧
      w1.fetches = w.fetches + 1 := by
  by_cases hdir : w.pathExists (cacheDir h p)
  · refine ⟨{ w with
        fetches := w.fetches + 1
        files := (cacheDir h p ++ "/" ++ base, bytes) :: w.files },
      ?_, hh, by simp [hdir], rfl, rfl, rfl, rfl, rfl, rfl⟩
    rw [download_eq_body p w h hh url, ensureDir_of_exists w _ hdir]
    simp [hb, hfile, fetchAndWrite_success w url _ bytes hresp hfc hfw]
  · have hfile' := pathExists_cons_dir w (cacheDir h p) base hfile
    refine ⟨{ w with
        dirs := cacheDir h p :: w.dirs
        fetches := w.fetches + 1
        files := (cacheDir h p ++ "/" ++ base, bytes) :: w.files },
      ?_, hh, by simp [hdir], rfl, rfl, rfl, rfl, rfl, rfl⟩
    rw [download_eq_body p w h hh url, ensureDir_creates w _ hdir hfd]
    simp [hb, hfile',
      fetchAndWrite_success { w with dirs := cacheDir h p :: w.dirs } url _ bytes
        hresp hfc hfw]

theorem download_write_fails (p : Pretrained) (w : World) (url h base : String)
    (bytes : List Nat)
    (hh : w.home = some h) (hb : fileBaseName url = some base)
    (hfd : w.failDirCreate = false) (hfc : w.failFileCreate = false)
    (hfw : w.failWrite = true)
    (hresp : w.response url = some bytes)
    (hfile : ¬ w.pathExists (cacheDir h p ++ "/" ++ base)) :
    ∃ w1 : World,
      p.download w url = (.err .writeAll, w1) ∧
      w1.home = some h ∧
      w1.dirs = (if w.pathExists (cacheDir h p) then w.dirs else cacheDir h p :: w.dirs) ∧
      w1.files = (cacheDir h p ++ "/" ++ base, []) :: w.files ∧
      w1.failDirCreate = w.failDirCreate ∧
      w1.failFileCreate = w.failFileCreate ∧
      w1.failWrite = w.failWrite ∧
      w1.response = w.response ∧
      w1.fetches = w.fetches + 1 := by
  by_cases hdir : w.pathExists (cacheDir h p)
  · refine ⟨{ w with
        fetches := w.fetches + 1
        files := (cacheDir h p ++ "/" ++ base, []) :: w.files },
      ?_, hh, by simp [hdir], rfl, rfl, rfl, rfl, rfl, rfl⟩
    rw [download_eq_body p w h hh url, ensureDir_of_exists w _ hdir]
    simp [hb, hfile, fetchAndWrite_write_fails w url _ bytes hresp hfc hfw]
  · have hfile' := pathExists_cons_dir w (cacheDir h p) base hfile
    refine ⟨{ w with
        dirs := cacheDir h p :: w.dirs
        fetches := w.fetches + 1
        files := (cacheDir h p ++ "/" ++ base, []) :: w.files },
      ?_, hh, by simp [hdir], rfl, rfl, rfl, rfl, rfl, rfl⟩
    rw [download_eq_body p w h hh url, ensureDir_creates w _ hdir hfd]
    simp [hb, hfile',
      fetchAndWrite_write_fails { w with dirs := cacheDir h p :: w.dirs } url _ bytes
        hresp hfc hfw]

theorem download_dir_create_error (p : Pretrained) (w : World) (url h : String)
    (hh : w.home = some h) (hdir : ¬ w.pathExists (cacheDir h p))
    (hfd : w.failDirCreate = true) :
    p.download w url = (.err .dirCreate, w) := by
  rw [download_eq_body p w h hh url, ensureDir_fails w _ hdir hfd]

theorem download_file_create_error (p : Pretrained) (w : World) (url h base : String)
    (bytes : List Nat)
    (hh : w.home = some h) (hb : fileBaseName url = some base)
    (hfd : w.failDirCreate = false) (hfc : w.failFileCreate = true)
    (hresp : w.response url = some bytes)
    (hfile : ¬ w.pathExists (cacheDir h p ++ "/" ++ base)) :
    (p.download w url).fst = .err .fileCreate := by
  by_cases hdir : w.pathExists (cacheDir h p)
  · rw [download_eq_body p w h hh url, ensureDir_of_exists w _ hdir]
    simp [hb, hfile, fetchAndWrite_create_fails w url _ bytes hresp hfc]
  · have hfile' := pathExists_cons_dir w (cacheDir h p) base hfile
    rw [download_eq_body p w h hh url, ensureDir_creates w _ hdir hfd]
    simp [hb, hfile',
      fetchAndWrite_create_fails { w with dirs := cacheDir h p :: w.dirs } url _ bytes
        hresp hfc]

theorem download_network_abort (p : Pretrained) (w : World) (url h base : String)
    (hh : w.home = some h) (hb : fileBaseName url = some base)
    (hfd : w.failDirCreate = false)
    (hresp : w.response url = none)
    (hfile : ¬ w.pathExists (cacheDir h p ++ "/" ++ base)) :
    (p.download w url).fst = .panicked "network failure" := by
  by_cases hdir : w.pathExists (cacheDir h p)
  · rw [download_eq_body p w h hh url, ensureDir_of_exists w _ hdir]
    simp [hb, hfile, fetchAndWrite_network_aborts w url _ hresp]
  · have hfile' := pathExists_cons_dir w (cacheDir h p) base hfile
    rw [download_eq_body p w h hh url, ensureDir_creates w _ hdir hfd]
    simp [hb, hfile',
      fetchAndWrite_network_aborts { w with dirs := cacheDir h p :: w.dirs } url _ hresp]

theorem download_ok_inv (p : Pretrained) (w : World) (url h pa : String) (w' : World)
    (hh : w.home = some h) (hres : p.download w url = (.ok pa, w')) :
    w'.home = some h ∧
    (∃ base, fileBaseName url = some base ∧ pa = cacheDir h p ++ "/" ++ base) ∧
    w'.pathExists (cacheDir h p) ∧
    w'.pathExists pa := by
  rw [download_eq_body p w h hh url] at hres
  split at hres
  · rename_i u w1 heq2
    obtain ⟨hdir1, hhome1, hfiles1, -, -, -, -, hmono⟩ :=
      ensureDir_ok_inv w (cacheDir h p) u w1 heq2
    split at hres
    · exact absurd (congrArg Prod.fst hres) (by simp)
    · rename_i base hbeq
      split at hres
      · rename_i hfe
        injection hres with h1 h2
        injection h1 with h1
        subst h2
        subst h1
        exact ⟨hhome1.trans hh, ⟨base, hbeq, rfl⟩, hdir1, hfe⟩
      · rename_i hfe
        obtain ⟨hpa, bytes, hrsp, hw'⟩ :=
          fetchAndWrite_ok_inv w1 url _ pa w' hres
        subst hpa
        subst hw'
        refine ⟨hhome1.trans hh, ⟨base, hbeq, rfl⟩, ?_, ?_⟩
        · rcases hdir1 with hx | hx
          · exact Or.inl hx
          · refine Or.inr ?_
            simp only [List.map_cons]
            exact List.mem_cons_of_mem _ hx
        · refine Or.inr ?_
          simp
  · exact absurd (congrArg Prod.fst hres) (by simp)
  · exact absurd (congrArg Prod.fst hres) (by simp)

/-! Shared consequences used by several claim theorems. -/

theorem pathExists_after_download (w w1 : World) (d f : String) (entry : List Nat)
    (hdirs1 : w1.dirs = (if w.pathExists d then w.dirs else d :: w.dirs))
    (hfiles1 : w1.files = (f, entry) :: w.files) :
    w1.pathExists d ∧ w1.pathExists f := by
  constructor
  · unfold World.pathExists
    rw [hdirs1, hfiles1]
    by_cases hdir : w.pathExists d
    · rw [if_pos hdir]
      rcases hdir with hx | hx
      · exact Or.inl hx
      · refine Or.inr ?_
        simp only [List.map_cons]
        exact List.mem_cons_of_mem _ hx
    · rw [if_neg hdir]
      exact Or.inl (List.mem_cons_self _ _)
  · unfold World.pathExists
    rw [hfiles1]
    refine Or.inr ?_
    simp

/-! The claims. -/

/-- C1: if the file is already at the computed cache path, `download` returns
`Ok` with that path and touches nothing (in particular no fetch happens);
hence two successive `download` calls on the same URL perform exactly one
fetch, the second being a pure cache hit. -/
theorem download_cache_hit_once (p : Pretrained) (w : World) (url h base : String)
    (bytes : List Nat)
    (hh : w.home = some h) (hb : fileBaseName url = some base) :
    (w.pathExists (cacheDir h p) → w.pathExists (cacheDir h p ++ "/" ++ base) →
      p.download w url = (.ok (cacheDir h p ++ "/" ++ base), w)) ∧
    (w.failDirCreate = false → w.failFileCreate = false → w.failWrite = false →
      w.response url = some bytes → ¬ w.pathExists (cacheDir h p ++ "/" ++ base) →
      ∃ w1 : World,
        p.download w url = (.ok (cacheDir h p ++ "/" ++ base), w1) ∧
        w1.fetches = w.fetches + 1 ∧
        p.download w1 url = (.ok (cacheDir h p ++ "/" ++ base), w1)) := by
  refine ⟨fun hdir hfile => download_hit p w url h base hh hb hdir hfile,
    fun hfd hfc hfw hresp hfile => ?_⟩
  obtain ⟨w1, hdl, hhome1, hdirs1, hfiles1, -, -, -, -, hfet1⟩ :=
    download_miss p w url h base bytes hh hb hfd hfc hfw hresp hfile
  obtain ⟨hd1, hf1⟩ := pathExists_after_download w w1 _ _ bytes hdirs1 hfiles1
  exact ⟨w1, hdl, hfet1, download_hit p w1 url h base hhome1 hb hd1 hf1⟩

theorem download_cache_hit_once_witness :
    (Pretrained.download Llama.Llama3.pretrained hitWorld "a/f" =
      (.ok (cacheDir "/h" Llama.Llama3.pretrained ++ "/" ++ "f"), hitWorld)) ∧
    (∃ w1 : World,
      Pretrained.download Llama.Llama3.pretrained missWorld "a/f" =
        (.ok (cacheDir "/h" Llama.Llama3.pretrained ++ "/" ++ "f"), w1) ∧
      w1.fetches = missWorld.fetches + 1 ∧
      Pretrained.download Llama.Llama3.pretrained w1 "a/f" =
        (.ok (cacheDir "/h" Llama.Llama3.pretrained ++ "/" ++ "f"), w1)) :=
  ⟨(download_cache_hit_once Llama.Llama3.pretrained hitWorld "a/f" "/h" "f" [7]
      rfl rfl).1 (by decide) (by decide),
   (download_cache_hit_once Llama.Llama3.pretrained missWorld "a/f" "/h" "f" [7]
      rfl rfl).2 rfl rfl rfl rfl (by decide)⟩

/-- C2 counterexample: on a world whose fetch fails, `download` ends in the
aborted (`panicked`) outcome and not in any `Result::Err` value, refuting the
claim that a network failure surfaces as an I/O error returned to the
caller. -/
theorem network_failure_not_err_cex :
    (Pretrained.download Llama.Llama3.pretrained netFailWorld "a/f").fst =
      .panicked "network failure" ∧
    (Pretrained.download Llama.Llama3.pretrained netFailWorld "a/f").fst ≠
      .err .dirCreate ∧
    (Pretrained.download Llama.Llama3.pretrained netFailWorld "a/f").fst ≠
      .err .fileCreate ∧
    (Pretrained.download Llama.Llama3.pretrained netFailWorld "a/f").fst ≠
      .err .writeAll :=
  ⟨rfl, by decide, by decide, by decide⟩

/-- C2 (amended): a directory-creation failure, a file-creation failure and a
file-write failure each surface as their own distinct I/O error in the
returned `Result`, with no retry and no fallback; a network failure does not
reach the `Result` — the fetch helper has no error channel, so the call ends
in an abort instead of an `Err`. -/
theorem download_error_propagation (p : Pretrained) (w : World) (url h base : String)
    (bytes : List Nat)
    (hh : w.home = some h) (hb : fileBaseName url = some base) :
    (¬ w.pathExists (cacheDir h p) → w.failDirCreate = true →
      p.download w url = (.err .dirCreate, w)) ∧
    (w.failDirCreate = false → w.response url = some bytes →
      w.failFileCreate = true → ¬ w.pathExists (cacheDir h p ++ "/" ++ base) →
      (p.download w url).fst = .err .fileCreate) ∧
    (w.failDirCreate = false → w.response url = some bytes →
      w.failFileCreate = false → w.failWrite = true →
      ¬ w.pathExists (cacheDir h p ++ "/" ++ base) →
      (p.download w url).fst = .err .writeAll) ∧
    (IOErrorKind.dirCreate ≠ IOErrorKind.fileCreate ∧
     IOErrorKind.dirCreate ≠ IOErrorKind.writeAll ∧
     IOErrorKind.fileCreate ≠ IOErrorKind.writeAll) ∧
    (w.failDirCreate = false → w.response url = none →
      ¬ w.pathExists (cacheDir h p ++ "/" ++ base) →
      (p.download w url).fst = .panicked "network failure" ∧
      ∀ e : IOErrorKind, (p.download w url).fst ≠ .err e) := by
  refine ⟨fun hdir hfd => download_dir_create_error p w url h hh hdir hfd,
    fun hfd hresp hfc hfile =>
      download_file_create_error p w url h base bytes hh hb hfd hfc hresp hfile,
    fun hfd hresp hfc hfw hfile => ?_,
    ⟨by decide, by decide, by decide⟩,
    fun hfd hresp hfile => ?_⟩
  · obtain ⟨w1, hdl, -⟩ :=
      download_write_fails p w url h base bytes hh hb hfd hfc hfw hresp hfile
    rw [hdl]
  · have habort := download_network_abort p w url h base hh hb hfd hresp hfile
    refine ⟨habort, fun e he => ?_⟩
    rw [habort] at he
    cases he

theorem download_error_propagation_witness :
    (Pretrained.download Llama.Llama3.pretrained dirFailWorld "a/f" =
      (.err .dirCreate, dirFailWorld)) ∧
    ((Pretrained.download Llama.Llama3.pretrained createFailWorld "a/f").fst =
      .err .fileCreate) ∧
    ((Pretrained.download Llama.Llama3.pretrained writeFailWorld "a/f").fst =
      .err .writeAll) ∧
    ((Pretrained.download Llama.Llama3.pretrained netFailWorld "a/f").fst =
      .panicked "network failure") :=
  ⟨(download_error_propagation Llama.Llama3.pretrained dirFailWorld "a/f" "/h" "f" [7]
      rfl rfl).1 (by decide) rfl,
   (download_error_propagation Llama.Llama3.pretrained createFailWorld "a/f" "/h" "f"
      [7] rfl rfl).2.1 rfl rfl rfl (by decide),
   (download_error_propagation Llama.Llama3.pretrained writeFailWorld "a/f" "/h" "f"
      [7] rfl rfl).2.2.1 rfl rfl rfl rfl (by decide),
   ((download_error_propagation Llama.Llama3.pretrained netFailWorld "a/f" "/h" "f"
      [7] rfl rfl).2.2.2.2 rfl rfl (by decide)).1⟩

/-- C3 counterexample: on a URL that ends in the `?download=true` marker but
whose final segment also contains the marker in its interior, the source
removes every occurrence (Rust `replace`), not just the trailing suffix the
claim describes. -/
theorem filename_strip_suffix_cex :
    downloadMarker.isSuffixOf "h/model?download=true.bin?download=true".data = true ∧
    fileBaseName "h/model?download=true.bin?download=true" = some "model.bin" ∧
    fileBaseNameSpec "h/model?download=true.bin?download=true" =
      some "model?download=true.bin" ∧
    fileBaseName "h/model?download=true.bin?download=true" ≠
      fileBaseNameSpec "h/model?download=true.bin?download=true" :=
  ⟨rfl, rfl, rfl, by decide⟩

/-- C3 (amended): for every URL whose final path segment is `base` followed by
one trailing `?download=true` marker, where `base` itself contains no `'?'`,
the derived cache file name is exactly `base` — the marker suffix is stripped,
and the source's remove-all-occurrences behaviour agrees with the spec's
strip-the-suffix description on such URLs (in particular on
`…/model.bin?download=true`, which yields `model.bin`). -/
theorem filename_marker_removal (url : String) (before base : List Char)
    (hsplit : rsplitOnceChar '/' url.data = some (before, base ++ downloadMarker))
    (hq : '?' ∉ base) :
    fileBaseName url = some (String.mk base) ∧
    fileBaseNameSpec url = some (String.mk base) := by
  constructor
  · unfold fileBaseName
    rw [hsplit]
    simp only [Option.map_some']
    rw [removeMarker_marker_append base hq]
  · unfold fileBaseNameSpec
    rw [hsplit]
    have hsuf : downloadMarker.isSuffixOf (base ++ downloadMarker) = true :=
      List.isSuffixOf_iff_suffix.mpr (List.suffix_append base downloadMarker)
    simp only [Option.map_some', hsuf, if_true]
    rw [List.length_append, Nat.add_sub_cancel, List.take_left]

theorem filename_marker_removal_witness :
    fileBaseName "a/model.bin?download=true" = some (String.mk "model.bin".data) ∧
    fileBaseNameSpec "a/model.bin?download=true" = some (String.mk "model.bin".data) :=
  filename_marker_removal "a/model.bin?download=true" "a".data "model.bin".data
    (by decide) (by decide)

/-- C4: on a cache miss whose `write_all` fails after `File::create`
succeeded, `download` returns the write error but an empty file is left at
the final cache path; the file's bytes are not the fetched bytes, yet every
subsequent `download` of the same URL returns `Ok` with that path, unchanged
state and no further fetch — the corrupt file acts as a valid cache hit. -/
theorem download_partial_file_cache_hit (p : Pretrained) (w : World)
    (url h base : String) (bytes : List Nat)
    (hh : w.home = some h) (hb : fileBaseName url = some base)
    (hfd : w.failDirCreate = false) (hfc : w.failFileCreate = false)
    (hfw : w.failWrite = true)
    (hresp : w.response url = some bytes) (hbytes : bytes ≠ [])
    (hfile : ¬ w.pathExists (cacheDir h p ++ "/" ++ base)) :
    ∃ w1 : World,
      p.download w url = (.err .writeAll, w1) ∧
      w1.fileContent (cacheDir h p ++ "/" ++ base) = some [] ∧
      w1.fileContent (cacheDir h p ++ "/" ++ base) ≠ some bytes ∧
      w1.fetches = w.fetches + 1 ∧
      p.download w1 url = (.ok (cacheDir h p ++ "/" ++ base), w1) := by
  obtain ⟨w1, hdl, hhome1, hdirs1, hfiles1, -, -, -, -, hfet1⟩ :=
    download_write_fails p w url h base bytes hh hb hfd hfc hfw hresp hfile
  obtain ⟨hd1, hf1⟩ := pathExists_after_download w w1 _ _ [] hdirs1 hfiles1
  have hcontent : w1.fileContent (cacheDir h p ++ "/" ++ base) = some [] := by
    unfold World.fileContent
    rw [hfiles1, List.find?_cons_of_pos _ (by simp)]
    rfl
  refine ⟨w1, hdl, hcontent, ?_, hfet1,
    download_hit p w1 url h base hhome1 hb hd1 hf1⟩
  rw [hcontent]
  intro hcon
  injection hcon with hcon
  exact hbytes hcon.symm

theorem download_partial_file_cache_hit_witness :
    ∃ w1 : World,
      Pretrained.download Llama.Llama3.pretrained writeFailWorld "a/f" =
        (.err .writeAll, w1) ∧
      w1.fileContent (cacheDir "/h" Llama.Llama3.pretrained ++ "/" ++ "f") =
        some [] ∧
      w1.fileContent (cacheDir "/h" Llama.Llama3.pretrained ++ "/" ++ "f") ≠
        some [7] ∧
      w1.fetches = writeFailWorld.fetches + 1 ∧
      Pretrained.download Llama.Llama3.pretrained w1 "a/f" =
        (.ok (cacheDir "/h" Llama.Llama3.pretrained ++ "/" ++ "f"), w1) :=
  download_partial_file_cache_hit Llama.Llama3.pretrained writeFailWorld "a/f" "/h"
    "f" [7] rfl rfl rfl rfl rfl rfl (by decide) (by decide)

/-- C5: the chat caller selects `Argmax` exactly when the temperature is `0`
and the seeded `TopP` sampler with the configured threshold exactly when it is
positive; for every non-negative temperature exactly one of the two variants
is chosen. -/
theorem chat_sampler_selection (t p : ℚ) (s : ℕ) (ht : 0 ≤ t) :
    (chatSampler t p s = .Argmax ↔ t = 0) ∧
    (chatSampler t p s = .TopP p s ↔ 0 < t) ∧
    (chatSampler t p s = .Argmax ∨ chatSampler t p s = .TopP p s) := by
  unfold chatSampler
  by_cases hpos : 0 < t
  · rw [if_pos hpos]
    exact ⟨⟨fun hc => absurd hc (by simp), fun h0 => absurd h0 hpos.ne'⟩,
      ⟨fun _ => hpos, fun _ => rfl⟩, Or.inr rfl⟩
  · have h0 : t = 0 := le_antisymm (not_lt.mp hpos) ht
    rw [if_neg hpos]
    exact ⟨⟨fun _ => h0, fun _ => rfl⟩,
      ⟨fun hc => absurd hc (by simp), fun hlt => absurd hlt hpos⟩, Or.inl rfl⟩

theorem chat_sampler_selection_witness :
    (chatSampler 0 (9 / 10) 42 = .Argmax ↔ (0 : ℚ) = 0) ∧
    (chatSampler 0 (9 / 10) 42 = .TopP (9 / 10) 42 ↔ (0 : ℚ) < 0) ∧
    (chatSampler 0 (9 / 10) 42 = .Argmax ∨
      chatSampler 0 (9 / 10) 42 = .TopP (9 / 10) 42) :=
  chat_sampler_selection 0 (9 / 10) 42 le_rfl

/-- C6: whenever `download` returns `Ok`, the returned artifact path is
`<home>/.cache/llama-burn/<variant name>/<derived filename>`. -/
theorem download_path_shape (p : Pretrained) (w w' : World) (url h pa : String)
    (hh : w.home = some h) (hres : p.download w url = (.ok pa, w')) :
    ∃ base, fileBaseName url = some base ∧
      pa = h ++ "/.cache/llama-burn/" ++ p.name ++ "/" ++ base := by
  obtain ⟨-, ⟨base, hb, hpa⟩, -, -⟩ := download_ok_inv p w url h pa w' hh hres
  exact ⟨base, hb, hpa⟩

theorem download_path_shape_witness :
    ∃ base, fileBaseName "a/f" = some base ∧
      cacheDir "/h" Llama.Llama3.pretrained ++ "/" ++ "f" =
        "/h" ++ "/.cache/llama-burn/" ++ Llama.Llama3.pretrained.name ++ "/" ++ base :=
  download_path_shape Llama.Llama3.pretrained hitWorld hitWorld "a/f" "/h"
    (cacheDir "/h" Llama.Llama3.pretrained ++ "/" ++ "f") rfl rfl

/-- C7: exactly two named variants are exposed, and each resolves
independently: `download_weights` downloads the variant's model URL and
`download_tokenizer` its tokenizer URL, each yielding the local cache path
derived from that URL. -/
theorem resolve_two_variants :
    (∀ l : Llama, l = .Llama3 ∨ l = .TinyLlama) ∧
    Llama.Llama3 ≠ Llama.TinyLlama ∧
    (∀ (h : String) (resp : String → Option (List Nat)) (bytes : List Nat),
      (∀ u, resp u = some bytes) →
      ((Llama.Llama3.pretrained).download_weights (World.fresh h resp)).fst =
        .ok (cacheDir h Llama.Llama3.pretrained ++ "/" ++ "model.bin") ∧
      ((Llama.Llama3.pretrained).download_tokenizer (World.fresh h resp)).fst =
        .ok (cacheDir h Llama.Llama3.pretrained ++ "/" ++ "tokenizer.model") ∧
      ((Llama.TinyLlama.pretrained).download_weights (World.fresh h resp)).fst =
        .ok (cacheDir h Llama.TinyLlama.pretrained ++ "/" ++ "model.bin") ∧
      ((Llama.TinyLlama.pretrained).download_tokenizer (World.fresh h resp)).fst =
        .ok (cacheDir h Llama.TinyLlama.pretrained ++ "/" ++ "tokenizer.json")) := by
  refine ⟨fun l => by cases l <;> simp, by decide, fun h resp bytes hr => ?_⟩
  have hfile : ∀ pth : String, ¬ (World.fresh h resp).pathExists pth := by
    intro pth hx
    rcases hx with hx | hx
    · simp [World.fresh] at hx
    · simp [World.fresh] at hx
  have key : ∀ (p : Pretrained) (url base : String), fileBaseName url = some base →
      (p.download (World.fresh h resp) url).fst =
        .ok (cacheDir h p ++ "/" ++ base) := by
    intro p url base hb
    obtain ⟨w1, hdl, -⟩ := download_miss p (World.fresh h resp) url h base bytes
      rfl hb rfl rfl rfl (hr url) (hfile _)
    rw [hdl]
  exact ⟨key Llama.Llama3.pretrained _ "model.bin" rfl,
    key Llama.Llama3.pretrained _ "tokenizer.model" rfl,
    key Llama.TinyLlama.pretrained _ "model.bin" rfl,
    key Llama.TinyLlama.pretrained _ "tokenizer.json" rfl⟩

theorem resolve_two_variants_witness :
    ((Llama.Llama3.pretrained).download_weights (World.fresh "/h" respBytes)).fst =
      .ok (cacheDir "/h" Llama.Llama3.pretrained ++ "/" ++ "model.bin") ∧
    ((Llama.TinyLlama.pretrained).download_tokenizer
        (World.fresh "/h" respBytes)).fst =
      .ok (cacheDir "/h" Llama.TinyLlama.pretrained ++ "/" ++ "tokenizer.json") :=
  ⟨(resolve_two_variants.2.2 "/h" respBytes [7] (fun _ => rfl)).1,
   (resolve_two_variants.2.2 "/h" respBytes [7] (fun _ => rfl)).2.2.2⟩

/-- C8: cache-directory creation is idempotent: after any successful
`download`, calling `download` again returns the same path with the state
unchanged, and it still succeeds when `create_dir_all` would fail — the
directory already exists, so the creation call is skipped and repeated calls
never error on account of the existing directory. -/
theorem cache_dir_idempotent (p : Pretrained) (w w1 : World) (url h pa : String)
    (hh : w.home = some h)
    (hfirst : p.download w url = (.ok pa, w1)) :
    p.download w1 url = (.ok pa, w1) ∧
    p.download { w1 with failDirCreate := true } url =
      (.ok pa, { w1 with failDirCreate := true }) := by
  obtain ⟨hhome1, ⟨base, hb, hpa⟩, hdir1, hfile1⟩ :=
    download_ok_inv p w url h pa w1 hh hfirst
  subst hpa
  exact ⟨download_hit p w1 url h base hhome1 hb hdir1 hfile1,
    download_hit p { w1 with failDirCreate := true } url h base hhome1 hb hdir1 hfile1⟩

theorem cache_dir_idempotent_witness :
    Pretrained.download Llama.Llama3.pretrained w1AfterMiss "a/f" =
      (.ok "/h/.cache/llama-burn/Llama-3-8B/f", w1AfterMiss) ∧
    Pretrained.download Llama.Llama3.pretrained
        { w1AfterMiss with failDirCreate := true } "a/f" =
      (.ok "/h/.cache/llama-burn/Llama-3-8B/f",
        { w1AfterMiss with failDirCreate := true }) :=
  cache_dir_idempotent Llama.Llama3.pretrained missWorld w1AfterMiss "a/f" "/h"
    "/h/.cache/llama-burn/Llama-3-8B/f" rfl rfl

/-- C9: the metadata table is injective on names: the two variants carry the
distinct names `"Llama-3-8B"` and `"TinyLlama-1.1B"`, two variants share a
name or a cache directory exactly when they are the same variant (the table
itself is a pure function of the variant, so every invocation returns the
same triple). -/
theorem pretrained_table_injective :
    Llama.Llama3.pretrained.name ≠ Llama.TinyLlama.pretrained.name ∧
    ∀ (h : String) (v1 v2 : Llama),
      (v1.pretrained.name = v2.pretrained.name ↔ v1 = v2) ∧
      (cacheDir h v1.pretrained = cacheDir h v2.pretrained ↔ v1 = v2) := by
  refine ⟨by decide, fun h v1 v2 => ?_⟩
  cases v1 <;> cases v2
  · exact ⟨⟨fun _ => rfl, fun _ => rfl⟩, ⟨fun _ => rfl, fun _ => rfl⟩⟩
  · exact ⟨⟨fun he => absurd he (by decide), fun he => absurd he (by decide)⟩,
      ⟨fun he => absurd he (cacheDir_ne h _ _ (by decide)),
       fun he => absurd he (by decide)⟩⟩
  · exact ⟨⟨fun he => absurd he (by decide), fun he => absurd he (by decide)⟩,
      ⟨fun he => absurd he (cacheDir_ne h _ _ (by decide)),
       fun he => absurd he (by decide)⟩⟩
  · exact ⟨⟨fun _ => rfl, fun _ => rfl⟩, ⟨fun _ => rfl, fun _ => rfl⟩⟩

/-- C10: `Pretrained::download` is only total under two unstated
preconditions: when the home directory is unresolvable the `expect` aborts,
and when the URL contains no `'/'` the `unwrap` on `rsplit_once` aborts — in
both cases the call panics instead of returning the `Err` its `Result`
signature suggests. -/
theorem download_unstated_preconditions (p : Pretrained) (w : World) (url : String) :
    (w.home = none →
      p.download w url = (.panicked "Should be able to get home directory", w)) ∧
    (∀ h : String, w.home = some h → w.failDirCreate = false → '/' ∉ url.data →
      (p.download w url).fst = .panicked "called Option.unwrap on a None value") := by
  constructor
  · intro hn
    unfold Pretrained.download
    rw [hn]
  · intro h hh hfd hslash
    have hb : fileBaseName url = none := by
      unfold fileBaseName
      rw [rsplitOnceChar_eq_none '/' url.data hslash]
      rfl
    rw [download_eq_body p w h hh url]
    by_cases hdir : w.pathExists (cacheDir h p)
    · rw [ensureDir_of_exists w _ hdir]
      simp [hb]
    · rw [ensureDir_creates w _ hdir hfd]
      simp [hb]

theorem download_unstated_preconditions_witness :
    (Pretrained.download Llama.Llama3.pretrained noHomeWorld "a/f" =
      (.panicked "Should be able to get home directory", noHomeWorld)) ∧
    ((Pretrained.download Llama.Llama3.pretrained netFailWorld "nofslash").fst =
      .panicked "called Option.unwrap on a None value") :=
  ⟨(download_unstated_preconditions Llama.Llama3.pretrained noHomeWorld "a/f").1 rfl,
   (download_unstated_preconditions Llama.Llama3.pretrained netFailWorld
      "nofslash").2 "/h" rfl rfl (by decide)⟩

end LlamaBurn
